import Mathlib

/-!
Verification of the input-to-action dispatch engine and the rectangle tool
state machine of the Graphite editor, as a shallow embedding of
`src/editor/src/input/input_mapper.rs`,
`src/editor/src/viewport_tools/tools/rectangle_tool.rs` and
`src/graphene/src/layers/layer_info.rs`.

Machine data is embedded as follows: the fixed-width key bitset `KeyStates`
becomes a `Nat` bitmask (the repository's `keyboard.rs` is not in the shown
sources; the spec describes it as a fixed-size bitset supporting AND, XOR,
emptiness and popcount), floating-point coordinates become rationals, and
the message enums become inductive types mirroring the Rust enums variant
by variant, restricted to the variants the shown sources use.
-/

set_option linter.unusedVariables false

/-- Modelled from the spec: a physical key (`Key` in `keyboard.rs`, which is not
in the shown sources) is "finite, dense, ordinally indexable"; we represent a
key by its ordinal index, which also makes the index-to-key reinterpretation
used by `InputMapper::hints` the identity. -/
abbrev Key := Nat

/-- Modelled from the spec: `KeyStates` (`keyboard.rs`, not in the shown
sources) is a fixed-width bit set over all `Key` values supporting AND, XOR,
emptiness test and popcount; we represent it as a natural-number bitmask. -/
abbrev KeyStates := Nat

/-- Modelled from the spec: `KeyStates::set(key)` sets one bit. -/
def KeyStates.set (s : KeyStates) (key : Key) : KeyStates := s ||| (2 ^ key)

/-- Modelled from the spec: `ones()` is the population count of the bitset;
the sum of the binary digits of the bitmask. -/
def KeyStates.ones (s : KeyStates) : Nat := (Nat.digits 2 s).sum

/-- `is_subset_of(other)` from `keyboard.rs`, whose defining formula
`((self & other) ^ other).is_empty()` appears verbatim at
`input_mapper.rs:38` as the `all_required_modifiers_pressed` test. -/
def KeyStates.is_subset_of (self other : KeyStates) : Bool :=
  ((self &&& other) ^^^ other) == 0

/-- `ToolType` (`editor/src/tool`): the tool identifiers named by the shown
sources. -/
inductive ToolType
  | Fill
  | Rectangle
  | Ellipse
  | Select
  | Line
  | Pen
  | Shape
  | Eyedropper
  deriving DecidableEq

/-- `RectangleToolMessage` (`rectangle_tool.rs:25-37`). -/
inductive RectangleToolMessage
  | Abort
  | DragStart
  | DragStop
  | Resize (center : Key) (lock_ratio : Key)
  deriving DecidableEq

/-- The payload-free discriminant of `RectangleToolMessage`. -/
inductive RectangleToolMessageDiscriminant
  | Abort
  | DragStart
  | DragStop
  | Resize
  deriving DecidableEq

/-- Projection of a rectangle tool message to its discriminant. -/
def RectangleToolMessage.to_discriminant :
    RectangleToolMessage → RectangleToolMessageDiscriminant
  | .Abort => .Abort
  | .DragStart => .DragStart
  | .DragStop => .DragStop
  | .Resize _ _ => .Resize

/-- `SelectMessage`: the variants used by the mapping table in
`input_mapper.rs:133-137`. -/
inductive SelectMessage
  | MouseMove
  | DragStart (add_to_selection : Key)
  | DragStop
  | Abort
  deriving DecidableEq

/-- The payload-free discriminant of `SelectMessage`. -/
inductive SelectMessageDiscriminant
  | MouseMove
  | DragStart
  | DragStop
  | Abort
  deriving DecidableEq

/-- Projection of a select tool message to its discriminant. -/
def SelectMessage.to_discriminant : SelectMessage → SelectMessageDiscriminant
  | .MouseMove => .MouseMove
  | .DragStart _ => .DragStart
  | .DragStop => .DragStop
  | .Abort => .Abort

/-- `ToolMessage`: the variants used by the shown sources
(`rectangle_tool.rs:43-53`, `input_mapper.rs:175-184`); the full enum lives
in a file that is not in the shown sources, so only these variants are
modelled. -/
inductive ToolMessage
  | UpdateHints
  | UpdateCursor
  | SelectTool (tool_type : ToolType)
  | ResetColors
  | SwapColors
  | Rectangle (m : RectangleToolMessage)
  | Select (m : SelectMessage)
  deriving DecidableEq

/-- The payload-free discriminant of `ToolMessage`. -/
inductive ToolMessageDiscriminant
  | UpdateHints
  | UpdateCursor
  | SelectTool
  | ResetColors
  | SwapColors
  | Rectangle (d : RectangleToolMessageDiscriminant)
  | Select (d : SelectMessageDiscriminant)
  deriving DecidableEq

/-- Projection of a tool message to its discriminant. -/
def ToolMessage.to_discriminant : ToolMessage → ToolMessageDiscriminant
  | .UpdateHints => .UpdateHints
  | .UpdateCursor => .UpdateCursor
  | .SelectTool _ => .SelectTool
  | .ResetColors => .ResetColors
  | .SwapColors => .SwapColors
  | .Rectangle m => .Rectangle m.to_discriminant
  | .Select m => .Select m.to_discriminant

/-- `DocumentMessage`: the variants used by the rectangle tool
(`rectangle_tool.rs:137,139,162,163,171`). -/
inductive DocumentMessage
  | StartTransaction
  | AbortTransaction
  | CommitTransaction
  | DeselectAllLayers
  deriving DecidableEq

/-- The payload-free discriminant of `DocumentMessage`. -/
inductive DocumentMessageDiscriminant
  | StartTransaction
  | AbortTransaction
  | CommitTransaction
  | DeselectAllLayers
  deriving DecidableEq

/-- Projection of a document message to its discriminant. -/
def DocumentMessage.to_discriminant : DocumentMessage → DocumentMessageDiscriminant
  | .StartTransaction => .StartTransaction
  | .AbortTransaction => .AbortTransaction
  | .CommitTransaction => .CommitTransaction
  | .DeselectAllLayers => .DeselectAllLayers

/-- `GlobalMessage` (`input_mapper.rs:255-257`). -/
inductive GlobalMessage
  | LogInfo
  | LogDebug
  | LogTrace
  deriving DecidableEq

/-- The payload-free discriminant of `GlobalMessage`. -/
inductive GlobalMessageDiscriminant
  | LogInfo
  | LogDebug
  | LogTrace
  deriving DecidableEq

/-- Projection of a global message to its discriminant. -/
def GlobalMessage.to_discriminant : GlobalMessage → GlobalMessageDiscriminant
  | .LogInfo => .LogInfo
  | .LogDebug => .LogDebug
  | .LogTrace => .LogTrace

/-- A mouse motion kind (`MouseMotion` in `input/keyboard.rs`, not in the
shown sources); only `LmbDrag` is used by the rectangle tool's hints. -/
inductive MouseMotion
  | LmbDrag
  deriving DecidableEq

/-- `KeysGroup` (`misc.rs`, usage at `rectangle_tool.rs:194`): a group of
keys shown together in one hint. -/
abbrev KeysGroup := List Key

/-- `HintInfo` (`misc.rs`, usage at `rectangle_tool.rs:187-218`). -/
structure HintInfo where
  key_groups : List KeysGroup
  mouse : Option MouseMotion
  label : String
  plus : Bool
  deriving DecidableEq

/-- `HintGroup`: one group of hints. -/
abbrev HintGroup := List HintInfo

/-- `HintData`: the full hint payload, a list of hint groups. -/
abbrev HintData := List HintGroup

/-- `MouseCursorIcon` (`frontend/utility_types`, not in the shown sources);
only `Crosshair` is used by the rectangle tool. -/
inductive MouseCursorIcon
  | Crosshair
  deriving DecidableEq

/-- `FrontendMessage`: the variants used by the rectangle tool
(`rectangle_tool.rs:222,226`). -/
inductive FrontendMessage
  | UpdateInputHints (hint_data : HintData)
  | UpdateMouseCursor (cursor : MouseCursorIcon)
  deriving DecidableEq

/-- The payload-free discriminant of `FrontendMessage`. -/
inductive FrontendMessageDiscriminant
  | UpdateInputHints
  | UpdateMouseCursor
  deriving DecidableEq

/-- Projection of a frontend message to its discriminant. -/
def FrontendMessage.to_discriminant : FrontendMessage → FrontendMessageDiscriminant
  | .UpdateInputHints _ => .UpdateInputHints
  | .UpdateMouseCursor _ => .UpdateMouseCursor

/-- The colour payload of a path style; opaque to every shown algorithm. -/
abbrev Color := Nat

/-- `PathStyle` (`graphene/src/layers/style`, not in the shown sources):
stroke and fill, used only as an opaque payload of `Operation::AddRect`. -/
structure PathStyle where
  stroke : Option Color
  fill : Option Color
  deriving DecidableEq

/-- `Operation`: the graphene operations used by the rectangle tool.
`AddRect` is built at `rectangle_tool.rs:142-148`;
`SetLayerTransformInViewport` is modelled from the spec as the
"geometry-update side effect" message produced by
`Resize::calculate_transform` (`shared/resize.rs`, not in the shown
sources). -/
inductive Operation
  | AddRect (path : List Nat) (insert_index : Int) (transform : List Rat) (style : PathStyle)
  | SetLayerTransformInViewport (path : List Nat)
  deriving DecidableEq

/-- The payload-free discriminant of `Operation`. -/
inductive OperationDiscriminant
  | AddRect
  | SetLayerTransformInViewport
  deriving DecidableEq

/-- Projection of an operation to its discriminant. -/
def Operation.to_discriminant : Operation → OperationDiscriminant
  | .AddRect _ _ _ _ => .AddRect
  | .SetLayerTransformInViewport _ => .SetLayerTransformInViewport

/-- The top-level `Message` enum, restricted to the subtrees the shown
sources construct. -/
inductive Message
  | Tool (m : ToolMessage)
  | Document (m : DocumentMessage)
  | Frontend (m : FrontendMessage)
  | Op (m : Operation)
  | Global (m : GlobalMessage)
  deriving DecidableEq

/-- The top-level `MessageDiscriminant` enum. -/
inductive MessageDiscriminant
  | Tool (d : ToolMessageDiscriminant)
  | Document (d : DocumentMessageDiscriminant)
  | Frontend (d : FrontendMessageDiscriminant)
  | Op (d : OperationDiscriminant)
  | Global (d : GlobalMessageDiscriminant)
  deriving DecidableEq

/-- `Message::to_discriminant`: drop every payload, keep the identity. -/
def Message.to_discriminant : Message → MessageDiscriminant
  | .Tool m => .Tool m.to_discriminant
  | .Document m => .Document m.to_discriminant
  | .Frontend m => .Frontend m.to_discriminant
  | .Op m => .Op m.to_discriminant
  | .Global m => .Global m.to_discriminant

/-- `ActionList`: the action advertisement, an ordered collection of groups
of discriminants (`Vec<Vec<MessageDiscriminant>>`). -/
abbrev ActionList := List (List MessageDiscriminant)

/-- `InputMapperMessage` (`input_mapper.rs:17-23`): the trigger of a
binding. -/
inductive InputMapperMessage
  | PointerMove
  | MouseScroll
  | KeyUp (key : Key)
  | KeyDown (key : Key)
  deriving DecidableEq

/-- `MappingEntry` (`input_mapper.rs:26-30`): one binding. -/
structure MappingEntry where
  trigger : InputMapperMessage
  modifiers : KeyStates
  action : Message
  deriving DecidableEq

/-- `KeyMappingEntries` (`input_mapper.rs:33`): the ordered binding list of
one trigger. -/
abbrev KeyMappingEntries := List MappingEntry

/-- `KeyMappingEntries::match_mapping` (`input_mapper.rs:36-44`): scan the
binding list in order; return a clone of the action of the first entry whose
required modifiers are all pressed and whose action discriminant appears in
some group of the advertisement. -/
def KeyMappingEntries.match_mapping :
    KeyMappingEntries → KeyStates → ActionList → Option Message
  | [], _, _ => none
  | entry :: rest, keys, actions =>
    let all_required_modifiers_pressed :=
      ((keys &&& entry.modifiers) ^^^ entry.modifiers) == 0
    if all_required_modifiers_pressed &&
        (actions.flatten.any fun action => decide (entry.action.to_discriminant = action)) then
      some entry.action
    else
      KeyMappingEntries.match_mapping rest keys actions

/-- The `Mapping` struct (`input_mapper.rs:65-71`); the two per-key arrays
are modelled as functions from the key ordinal. -/
structure Mapping where
  key_up : Key → KeyMappingEntries
  key_down : Key → KeyMappingEntries
  pointer_move : KeyMappingEntries
  mouse_scroll : KeyMappingEntries

/-- One step of the grouping loop of the `mapping!` macro
(`input_mapper.rs:110-120`): append the entry at the end of the list of its
trigger. -/
def Mapping.pushEntry (m : Mapping) (entry : MappingEntry) : Mapping :=
  match entry.trigger with
  | .KeyDown key =>
      { m with key_down := fun k => if k = key then m.key_down k ++ [entry] else m.key_down k }
  | .KeyUp key =>
      { m with key_up := fun k => if k = key then m.key_up k ++ [entry] else m.key_up k }
  | .PointerMove => { m with pointer_move := m.pointer_move ++ [entry] }
  | .MouseScroll => { m with mouse_scroll := m.mouse_scroll ++ [entry] }

/-- The empty mapping the `mapping!` macro starts from
(`input_mapper.rs:106-109`). -/
def Mapping.empty : Mapping :=
  { key_up := fun _ => [], key_down := fun _ => [], pointer_move := [], mouse_scroll := [] }

/-- The grouping phase of `Mapping::default` (`input_mapper.rs:110-120`):
distribute the declared bindings, in declaration order, into per-trigger
lists. -/
def Mapping.group (entries : List MappingEntry) : Mapping :=
  entries.foldl Mapping.pushEntry Mapping.empty

/-- One insertion step of the stable sort of `Mapping::default`
(`input_mapper.rs:261`): the Rust code stable-sorts each per-trigger list
with the comparator `v.modifiers.ones().cmp(&u.modifiers.ones())`
(descending popcount); a stable sort has a unique result, realised here by
insertion before the first element of smaller-or-equal popcount. -/
def insertEntry (e : MappingEntry) : List MappingEntry → List MappingEntry
  | [] => [e]
  | f :: rest =>
    if f.modifiers.ones ≤ e.modifiers.ones then e :: f :: rest
    else f :: insertEntry e rest

/-- The stable descending-popcount sort applied to every per-trigger list by
`Mapping::default` (`input_mapper.rs:261-268`). -/
def sortEntries (l : List MappingEntry) : List MappingEntry :=
  l.foldr insertEntry []

/-- `Mapping::default` minus the literal binding table
(`input_mapper.rs:260-275`): group the declared bindings by trigger, then
stable-sort every per-trigger list by descending modifier popcount. -/
def Mapping.build (entries : List MappingEntry) : Mapping :=
  let g := Mapping.group entries
  { key_up := fun k => sortEntries (g.key_up k)
  , key_down := fun k => sortEntries (g.key_down k)
  , pointer_move := sortEntries g.pointer_move
  , mouse_scroll := sortEntries g.mouse_scroll }

/-- The per-trigger lookup performed by `Mapping::match_message`
(`input_mapper.rs:281-286`). -/
def Mapping.list (m : Mapping) : InputMapperMessage → KeyMappingEntries
  | .KeyDown key => m.key_down key
  | .KeyUp key => m.key_up key
  | .PointerMove => m.pointer_move
  | .MouseScroll => m.mouse_scroll

/-- `Mapping::match_message` (`input_mapper.rs:279-288`): look up the
trigger's binding list and delegate to `match_mapping`. -/
def Mapping.match_message (m : Mapping) (message : InputMapperMessage)
    (keys : KeyStates) (actions : ActionList) : Option Message :=
  KeyMappingEntries.match_mapping
    (match message with
      | .KeyDown key => m.key_down key
      | .KeyUp key => m.key_up key
      | .PointerMove => m.pointer_move
      | .MouseScroll => m.mouse_scroll)
    keys actions

/-- The exclusion filter of `InputMapper::hints` (`input_mapper.rs:302`):
tool-switching (`SelectTool`) and global actions are never shown as hints. -/
def MessageDiscriminant.excludedFromHints : MessageDiscriminant → Bool
  | .Tool .SelectTool => true
  | .Global _ => true
  | _ => false

/-- The inner `actions.find_map` of `InputMapper::hints`
(`input_mapper.rs:308`): scan the remaining advertisement iterator for the
discriminant `d`, consuming every element up to and including the hit;
return the hit (if any) together with the elements left in the iterator. -/
def consumeFind (d : MessageDiscriminant) :
    List MessageDiscriminant → Option MessageDiscriminant × List MessageDiscriminant
  | [] => (none, [])
  | a :: rest => if a = d then (some d, rest) else consumeFind d rest

/-- The outer `m.0.iter().find_map` of `InputMapper::hints`
(`input_mapper.rs:308`): try each binding of a key in list order against the
remaining advertisement iterator. -/
def findBinding :
    KeyMappingEntries → List MessageDiscriminant →
    Option MessageDiscriminant × List MessageDiscriminant
  | [], it => (none, it)
  | e :: rest, it =>
    match consumeFind e.action.to_discriminant it with
    | (some d, it') => (some d, it')
    | (none, it') => findBinding rest it'

/-- The `filter_map` over the enumerated `key_down` array of
`InputMapper::hints` (`input_mapper.rs:303-311`), with the advertisement
iterator threaded through keys in table order. -/
def hintEntries :
    List (Nat × KeyMappingEntries) → List MessageDiscriminant →
    List (Key × MessageDiscriminant)
  | [], _ => []
  | (k, entries) :: restTable, it =>
    match findBinding entries it with
    | (some d, it') => (k, d) :: hintEntries restTable it'
    | (none, it') => hintEntries restTable it'

/-- `InputMapper::hints` (`input_mapper.rs:297-316`) up to string rendering:
flatten the advertisement, filter out tool-switching and global actions,
then walk the `key_down` table in key order pairing keys with actions found
in the (consumed) advertisement iterator.  The table argument is the
`key_down` array of the mapping; the result is the list of
"key: action" pairs that the Rust code renders into the display string. -/
def InputMapper.hints (key_down : List KeyMappingEntries) (actions : ActionList) :
    List (Key × MessageDiscriminant) :=
  hintEntries key_down.enum
    (actions.flatten.filter fun a => !a.excludedFromHints)

/-- The hint projection as the specification words it: each key of the
table, in table order, paired independently with (the discriminant of) the
first of its bindings whose action is currently advertised and not
excluded, the advertisement being searched afresh for every key. -/
def InputMapper.hintsIndependent (key_down : List KeyMappingEntries) (actions : ActionList) :
    List (Key × MessageDiscriminant) :=
  let filtered := actions.flatten.filter fun a => !a.excludedFromHints
  key_down.enum.filterMap fun p =>
    (p.2.find? fun e =>
        filtered.any fun a => decide (e.action.to_discriminant = a)).map
      fun e => (p.1, e.action.to_discriminant)

/-- A planar position (`glam::DVec2`), with rational coordinates in place of
`f64`. -/
abbrev Position := Rat × Rat

/-- Models `a.distance(b) <= t` (`rectangle_tool.rs:161`) over rationals:
the Euclidean comparison is encoded by comparing squared distance against
the squared threshold, which is equivalent for `0 ≤ t`. -/
def distanceLe (a b : Position) (t : Rat) : Bool :=
  decide ((a.1 - b.1) * (a.1 - b.1) + (a.2 - b.2) * (a.2 - b.2) ≤ t * t)

/-- Modelled from the spec: the gesture-local scratch state
`shared::resize::Resize` (`shared/resize.rs`, not in the shown sources):
the drag origin and the in-progress layer path handle. -/
structure ResizeData where
  drag_start : Position
  path : Option (List Nat)
  deriving DecidableEq

/-- Modelled from the spec: `Resize::start` (`shared/resize.rs`, not in the
shown sources) records the drag origin from the current mouse position at
gesture start. -/
def ResizeData.start (sd : ResizeData) (mouse_position : Position) : ResizeData :=
  { sd with drag_start := mouse_position }

/-- Modelled from the spec: `Resize::calculate_transform` (`shared/resize.rs`,
not in the shown sources) produces the "geometry-update side effect" message
for the in-progress layer when one exists, and nothing otherwise. -/
def ResizeData.calculate_transform (sd : ResizeData) : Option Message :=
  sd.path.map fun p => Message.Op (Operation.SetLayerTransformInViewport p)

/-- Modelled from the spec: `Resize::cleanup` (`shared/resize.rs`, not in the
shown sources) resets the gesture-local scratch state at gesture
completion. -/
def ResizeData.cleanup (sd : ResizeData) : ResizeData :=
  { sd with path := none }

/-- `RectangleToolFsmState` (`rectangle_tool.rs:100-104`). -/
inductive RectangleToolFsmState
  | Ready
  | Drawing
  deriving DecidableEq

/-- `RectangleToolData` (`rectangle_tool.rs:111-114`). -/
structure RectangleToolData where
  data : ResizeData
  deriving DecidableEq

/-- `RectangleTool` (`rectangle_tool.rs:16-20`). -/
structure RectangleTool where
  fsm_state : RectangleToolFsmState
  tool_data : RectangleToolData
  deriving DecidableEq

/-- The context handed to the tool framework (`ToolActionHandlerData`:
document, global tool data, input preprocessor, font cache), reduced to the
fields the rectangle tool reads: the mouse position
(`input.mouse.position`), the path for a new layer
(`document.get_path_for_new_layer()`) and the primary colour
(`global_tool_data.primary_color`). -/
structure ToolActionHandlerData where
  mouse_position : Position
  new_layer_path : List Nat
  primary_color : Color
  deriving DecidableEq

/-- `RectangleToolFsmState::transition` (`rectangle_tool.rs:120-182`),
with the pushed side-effect messages returned as an ordered list and the
threshold constant `DRAG_THRESHOLD` (`crate::consts`, not in the shown
sources) taken as a parameter. -/
def RectangleToolFsmState.transition (DRAG_THRESHOLD : Rat)
    (self : RectangleToolFsmState) (event : ToolMessage)
    (tool_data : RectangleToolData) (ctx : ToolActionHandlerData) :
    RectangleToolFsmState × RectangleToolData × List Message :=
  match event with
  | ToolMessage.Rectangle event =>
    match self, event with
    | .Ready, .DragStart =>
        let shape_data := tool_data.data.start ctx.mouse_position
        let shape_data := { shape_data with path := some ctx.new_layer_path }
        (.Drawing, ⟨shape_data⟩,
          [ Message.Document .StartTransaction
          , Message.Document .DeselectAllLayers
          , Message.Op (Operation.AddRect ctx.new_layer_path (-1)
              [0, 0, 0, 0, 0, 0] ⟨none, some ctx.primary_color⟩) ])
    | state, .Resize center lock_ratio =>
        match tool_data.data.calculate_transform with
        | some message => (state, tool_data, [message])
        | none => (state, tool_data, [])
    | .Drawing, .DragStop =>
        let msg :=
          if distanceLe tool_data.data.drag_start ctx.mouse_position DRAG_THRESHOLD then
            Message.Document .AbortTransaction
          else
            Message.Document .CommitTransaction
        (.Ready, ⟨tool_data.data.cleanup⟩, [msg])
    | .Drawing, .Abort =>
        (.Ready, ⟨tool_data.data.cleanup⟩, [Message.Document .AbortTransaction])
    | state, _ => (state, tool_data, [])
  | _ => (self, tool_data, [])

/-- The hint payload of the `Ready` state (`rectangle_tool.rs:186-205`). -/
def readyHintData : HintData :=
  [[ { key_groups := [], mouse := some .LmbDrag, label := "Draw Rectangle", plus := false }
   , { key_groups := [[16]], mouse := none, label := "Constrain Square", plus := true }
   , { key_groups := [[17]], mouse := none, label := "From Center", plus := true } ]]

/-- The hint payload of the `Drawing` state (`rectangle_tool.rs:206-219`). -/
def drawingHintData : HintData :=
  [[ { key_groups := [[16]], mouse := none, label := "Constrain Square", plus := false }
   , { key_groups := [[17]], mouse := none, label := "From Center", plus := false } ]]

/-- `update_hints` (`rectangle_tool.rs:184-223`): the single hint message
pushed for a state (key ordinals 16 and 17 stand for `KeyShift` and
`KeyAlt`, whose ordinals are fixed in the unshown `keyboard.rs`). -/
def RectangleToolFsmState.update_hints : RectangleToolFsmState → Message
  | .Ready => .Frontend (.UpdateInputHints readyHintData)
  | .Drawing => .Frontend (.UpdateInputHints drawingHintData)

/-- `update_cursor` (`rectangle_tool.rs:225-227`): the single cursor message
pushed for a state (always the crosshair for the rectangle tool). -/
def RectangleToolFsmState.update_cursor : RectangleToolFsmState → Message
  | _ => .Frontend (.UpdateMouseCursor .Crosshair)

/-- `RectangleTool::process_action` (`rectangle_tool.rs:42-60`): the generic
driver step; returns the updated tool and the ordered list of messages
pushed to the response queue. -/
def RectangleTool.process_action (DRAG_THRESHOLD : Rat) (tool : RectangleTool)
    (action : ToolMessage) (ctx : ToolActionHandlerData) :
    RectangleTool × List Message :=
  if action = ToolMessage.UpdateHints then
    (tool, [tool.fsm_state.update_hints])
  else if action = ToolMessage.UpdateCursor then
    (tool, [tool.fsm_state.update_cursor])
  else
    let res := tool.fsm_state.transition DRAG_THRESHOLD action tool.tool_data ctx
    let new_state := res.1
    if tool.fsm_state ≠ new_state then
      ({ fsm_state := new_state, tool_data := res.2.1 },
        res.2.2 ++ [new_state.update_hints, new_state.update_cursor])
    else
      ({ tool with tool_data := res.2.1 }, res.2.2)

/-- `RectangleTool::actions` (`rectangle_tool.rs:62-75`): the advertised
action discriminants of the current state. -/
def RectangleTool.actions (tool : RectangleTool) : ActionList :=
  match tool.fsm_state with
  | .Ready =>
      [[MessageDiscriminant.Tool (.Rectangle .DragStart)]]
  | .Drawing =>
      [[ MessageDiscriminant.Tool (.Rectangle .DragStop)
       , MessageDiscriminant.Tool (.Rectangle .Abort)
       , MessageDiscriminant.Tool (.Rectangle .Resize) ]]

/-- Recogniser for hint messages (`FrontendMessage::UpdateInputHints`). -/
def Message.isHintMessage : Message → Bool
  | .Frontend (.UpdateInputHints _) => true
  | _ => false

/-- Recogniser for cursor messages (`FrontendMessage::UpdateMouseCursor`). -/
def Message.isCursorMessage : Message → Bool
  | .Frontend (.UpdateMouseCursor _) => true
  | _ => false

/-- Recogniser for the geometry-update message of `Resize`. -/
def Message.isGeometryUpdate : Message → Bool
  | .Op (.SetLayerTransformInViewport _) => true
  | _ => false

/-- The (state, action) pairs the rectangle tool's `transition` does not
explicitly handle: every non-`Rectangle` tool message, and the rectangle
events that fall through to the wildcard arm of the match at
`rectangle_tool.rs:177`. -/
def RectangleToolFsmState.unhandled : RectangleToolFsmState → ToolMessage → Bool
  | _, .Rectangle (.Resize _ _) => false
  | .Ready, .Rectangle .DragStart => false
  | .Drawing, .Rectangle .DragStop => false
  | .Drawing, .Rectangle .Abort => false
  | _, .Rectangle _ => true
  | _, _ => true

/-- `Layer` (`layer_info.rs:71-86`), polymorphic over the payload types that
live in files not among the shown sources (`LayerDataType` content,
`glam::DAffine2`, `BlendMode`); `opacity` (`f64`) is a rational. -/
structure Layer (Data Transform BlendMode : Type) where
  visible : Bool
  name : Option String
  data : Data
  transform : Transform
  cache : String
  thumbnail_cache : String
  cache_dirty : Bool
  blend_mode : BlendMode
  opacity : Rat

/-- `impl Clone for Layer` (`layer_info.rs:232-246`): copy every persistent
field (`clone()` of an owned value is the value itself under value
semantics) but reset both render caches to fresh empty strings and mark the
cache dirty. -/
def Layer.clone {Data Transform BlendMode : Type}
    (self : Layer Data Transform BlendMode) : Layer Data Transform BlendMode :=
  { visible := self.visible
  , name := self.name
  , data := self.data
  , transform := self.transform
  , cache := ""
  , thumbnail_cache := ""
  , cache_dirty := true
  , blend_mode := self.blend_mode
  , opacity := self.opacity }

/-- The `Lmb` key-down binding of the Select tool
(`input_mapper.rs:134`), with key ordinals 0 (`Lmb`) and 16 (`KeyShift`)
standing for the ordinals fixed in the unshown `keyboard.rs`. -/
def selectDragStartEntry : MappingEntry :=
  { trigger := .KeyDown 0, modifiers := 0
  , action := .Tool (.Select (.DragStart 16)) }

/-- The `Lmb` key-down binding of the Rectangle tool
(`input_mapper.rs:142`), declared after the Select tool's binding on the
same key. -/
def rectangleDragStartEntry : MappingEntry :=
  { trigger := .KeyDown 0, modifiers := 0
  , action := .Tool (.Rectangle .DragStart) }

/-- A two-binding declaration list used to instantiate the generic
theorems: the `Lmb` bindings of the Select and Rectangle tools in their
declaration order. -/
def demoEntries : List MappingEntry :=
  [selectDragStartEntry, rectangleDragStartEntry]

/-- A concrete tool-framework context used to instantiate the generic
theorems. -/
def demoContext : ToolActionHandlerData :=
  { mouse_position := (0, 0), new_layer_path := [1], primary_color := 0 }

/-- A concrete fresh rectangle tool scratch state. -/
def demoToolData : RectangleToolData :=
  ⟨{ drag_start := (0, 0), path := none }⟩

/-- A rectangle tool sitting in the initial `Ready` state. -/
def demoReadyTool : RectangleTool :=
  ⟨.Ready, demoToolData⟩

theorem match_mapping_eq_find? (entries : KeyMappingEntries) (keys : KeyStates)
    (actions : ActionList) :
    KeyMappingEntries.match_mapping entries keys actions =
      (entries.find? fun e =>
          (((keys &&& e.modifiers) ^^^ e.modifiers) == 0) &&
            (actions.flatten.any fun a => decide (e.action.to_discriminant = a))).map
        (fun e => e.action) := by
  induction entries with
  | nil => rfl
  | cons e rest ih =>
      by_cases h : ((((keys &&& e.modifiers) ^^^ e.modifiers) == 0) &&
          (actions.flatten.any fun a => decide (e.action.to_discriminant = a))) = true
      · have hfind : (List.find? (fun e =>
            (((keys &&& e.modifiers) ^^^ e.modifiers) == 0) &&
              (actions.flatten.any fun a => decide (e.action.to_discriminant = a)))
            (e :: rest)) = some e := List.find?_cons_of_pos rest h
        simp only [KeyMappingEntries.match_mapping]
        rw [if_pos h, hfind]
        rfl
      · have hfind : (List.find? (fun e =>
            (((keys &&& e.modifiers) ^^^ e.modifiers) == 0) &&
              (actions.flatten.any fun a => decide (e.action.to_discriminant = a)))
            (e :: rest)) = List.find? (fun e =>
            (((keys &&& e.modifiers) ^^^ e.modifiers) == 0) &&
              (actions.flatten.any fun a => decide (e.action.to_discriminant = a)))
            rest := List.find?_cons_of_neg rest h
        simp only [KeyMappingEntries.match_mapping]
        rw [if_neg h, hfind, ih]

/-- Claim C1: for every trigger, live key-state set and advertisement, the
dispatcher scans the trigger's binding list in list order and returns the
action of the first binding whose required modifiers are all held and whose
action discriminant appears in some group of the advertisement (`List.find?`
over the binding list), returning nothing when no binding satisfies both
conditions — so at most one action is produced per event; moreover whatever
is returned is advertised, so a binding whose discriminant is absent from
the advertisement never fires even when its key chord matches. -/
theorem c1_dispatch_first_eligible (m : Mapping) (trigger : InputMapperMessage)
    (live_keys : KeyStates) (advertisement : ActionList) :
    m.match_message trigger live_keys advertisement =
      ((m.list trigger).find? fun e =>
          (((live_keys &&& e.modifiers) ^^^ e.modifiers) == 0) &&
            (advertisement.flatten.any fun a => decide (e.action.to_discriminant = a))).map
        (fun e => e.action)
  ∧ (m.match_message trigger live_keys advertisement).all
      (fun msg => advertisement.flatten.any fun a => decide (msg.to_discriminant = a)) = true := by
  have h1 : m.match_message trigger live_keys advertisement =
      KeyMappingEntries.match_mapping (m.list trigger) live_keys advertisement := by
    cases trigger <;> rfl
  refine ⟨h1.trans (match_mapping_eq_find? _ _ _), ?_⟩
  rw [h1, match_mapping_eq_find?]
  rcases hf : ((m.list trigger).find? fun e =>
      (((live_keys &&& e.modifiers) ^^^ e.modifiers) == 0) &&
        (advertisement.flatten.any fun a => decide (e.action.to_discriminant = a))) with _ | e
  · rw [hf]; rfl
  · have hp := List.find?_some hf
    rw [Bool.and_eq_true] at hp
    rw [hf]
    exact hp.2

/-- Claim C3: the modifier test `((live & required) ^ required).is_empty()`
(`input_mapper.rs:38`, `is_subset_of` in the spec) holds exactly when every
bit set in `required` is also set in `live`; bits held in `live` but not
required never affect the result. -/
theorem c3_subset_test_correct (live required : KeyStates) :
    KeyStates.is_subset_of live required = true ↔
      ∀ i, required.testBit i = true → live.testBit i = true := by
  unfold KeyStates.is_subset_of
  rw [beq_iff_eq]
  constructor
  · intro h i hi
    have hbit : ((live &&& required) ^^^ required).testBit i = false := by
      rw [h]; exact Nat.zero_testBit i
    rw [Nat.testBit_xor, Nat.testBit_and, hi] at hbit
    revert hbit
    cases live.testBit i <;> simp
  · intro h
    apply Nat.eq_of_testBit_eq
    intro i
    rw [Nat.testBit_xor, Nat.testBit_and, Nat.zero_testBit]
    cases hr : required.testBit i
    · simp
    · simp [h i hr]

/-- Claim C4: the rectangle tool's transition function is total — on every
(state, action) pair it does not explicitly handle, including every
non-`Rectangle` tool message, `(Ready, DragStop)`, `(Ready, Abort)` and
`(Drawing, DragStart)`, it returns the input state unchanged with untouched
tool data and no side-effect message. -/
theorem c4_transition_total_noop (DRAG_THRESHOLD : Rat) (state : RectangleToolFsmState)
    (event : ToolMessage) (tool_data : RectangleToolData) (ctx : ToolActionHandlerData)
    (h : state.unhandled event = true) :
    state.transition DRAG_THRESHOLD event tool_data ctx = (state, tool_data, []) := by
  cases event with
  | Rectangle m =>
      cases m <;> cases state <;>
        simp_all [RectangleToolFsmState.unhandled, RectangleToolFsmState.transition]
  | UpdateHints => rfl
  | UpdateCursor => rfl
  | SelectTool t => rfl
  | ResetColors => rfl
  | SwapColors => rfl
  | Select m => rfl

theorem c4_witness :
    RectangleToolFsmState.unhandled .Ready (.Rectangle .DragStop) = true ∧
      RectangleToolFsmState.transition 1 .Ready (.Rectangle .DragStop) demoToolData demoContext =
        (.Ready, demoToolData, []) :=
  ⟨by decide, c4_transition_total_noop 1 .Ready (.Rectangle .DragStop) demoToolData demoContext
    (by decide)⟩

/-- Claim C6: for the rectangle tool, `Resize` is a self-loop — the transition
returns the same state and the same tool data for every state, emitting only
a geometry-update message — and the `Resize` discriminant is advertised
exactly in the `Drawing` state, while in `Ready` the advertised set contains
only `DragStart`. -/
theorem c6_resize_self_loop (DRAG_THRESHOLD : Rat) (state : RectangleToolFsmState)
    (center lock_ratio : Key) (tool_data : RectangleToolData) (ctx : ToolActionHandlerData) :
    (state.transition DRAG_THRESHOLD (.Rectangle (.Resize center lock_ratio)) tool_data ctx).1
      = state
  ∧ (state.transition DRAG_THRESHOLD (.Rectangle (.Resize center lock_ratio)) tool_data ctx).2.1
      = tool_data
  ∧ ((state.transition DRAG_THRESHOLD (.Rectangle (.Resize center lock_ratio)) tool_data ctx).2.2.all
      Message.isGeometryUpdate) = true
  ∧ (∀ tool : RectangleTool,
      MessageDiscriminant.Tool (.Rectangle .Resize) ∈ tool.actions.flatten ↔
        tool.fsm_state = .Drawing)
  ∧ RectangleTool.actions ⟨.Ready, tool_data⟩ = [[MessageDiscriminant.Tool (.Rectangle .DragStart)]] := by
  refine ⟨?_, ?_, ?_, ?_, rfl⟩
  · cases state <;> cases hp : tool_data.data.path <;>
      simp [RectangleToolFsmState.transition, ResizeData.calculate_transform, hp]
  · cases state <;> cases hp : tool_data.data.path <;>
      simp [RectangleToolFsmState.transition, ResizeData.calculate_transform, hp]
  · cases state <;> cases hp : tool_data.data.path <;>
      simp [RectangleToolFsmState.transition, ResizeData.calculate_transform, hp,
        Message.isGeometryUpdate]
  · intro tool
    obtain ⟨s, d⟩ := tool
    cases s <;> simp [RectangleTool.actions]

/-- Claim C7: in the `Drawing` state, `DragStop` returns to `Ready`; when the
drag distance from the drag origin is at most `DRAG_THRESHOLD` an
abort-transaction message is enqueued, and otherwise a commit-transaction
message; either way that transaction message precedes the `Ready`-state hint
update (and the cursor update) in the response queue. -/
theorem c7_drag_stop_threshold (DRAG_THRESHOLD : Rat) (tool_data : RectangleToolData)
    (ctx : ToolActionHandlerData) :
    RectangleTool.process_action DRAG_THRESHOLD ⟨.Drawing, tool_data⟩ (.Rectangle .DragStop) ctx =
      (⟨.Ready, ⟨tool_data.data.cleanup⟩⟩,
        [ if distanceLe tool_data.data.drag_start ctx.mouse_position DRAG_THRESHOLD then
            Message.Document .AbortTransaction
          else
            Message.Document .CommitTransaction
        , RectangleToolFsmState.update_hints .Ready
        , RectangleToolFsmState.update_cursor .Ready ]) := by
  simp [RectangleTool.process_action, RectangleToolFsmState.transition]

/-- Claim C9: dispatch is deterministic — on the same immutable mapping table,
two invocations of the dispatcher's match with equal triggers, equal live
key states and equal advertisements yield the same result; the match is a
pure function, so it mutates neither the table, the key states nor the
advertisement. -/
theorem c9_dispatch_deterministic (m : Mapping) (trigger : InputMapperMessage)
    (keys1 keys2 : KeyStates) (actions1 actions2 : ActionList)
    (hk : keys1 = keys2) (ha : actions1 = actions2) :
    m.match_message trigger keys1 actions1 = m.match_message trigger keys2 actions2 := by
  subst hk; subst ha; rfl

theorem c9_witness :
    (Mapping.build demoEntries).match_message (.KeyDown 0) 0
        [[MessageDiscriminant.Tool (.Rectangle .DragStart)]] =
      (Mapping.build demoEntries).match_message (.KeyDown 0) 0
        [[MessageDiscriminant.Tool (.Rectangle .DragStart)]] :=
  c9_dispatch_deterministic (Mapping.build demoEntries) (.KeyDown 0) 0 0
    [[MessageDiscriminant.Tool (.Rectangle .DragStart)]]
    [[MessageDiscriminant.Tool (.Rectangle .DragStart)]] rfl rfl

/-- Claim C10: cloning a layer copies `visible`, `name`, `data`, `transform`,
`blend_mode` and `opacity`, while resetting both render caches to empty
strings and marking the cache dirty, so a cloned layer never reuses the
original's cached SVG output. -/
theorem c10_clone_resets_caches (Data Transform BlendMode : Type)
    (layer : Layer Data Transform BlendMode) :
    layer.clone.visible = layer.visible ∧
    layer.clone.name = layer.name ∧
    layer.clone.data = layer.data ∧
    layer.clone.transform = layer.transform ∧
    layer.clone.blend_mode = layer.blend_mode ∧
    layer.clone.opacity = layer.opacity ∧
    layer.clone.cache = "" ∧
    layer.clone.thumbnail_cache = "" ∧
    layer.clone.cache_dirty = true :=
  ⟨rfl, rfl, rfl, rfl, rfl, rfl, rfl, rfl, rfl⟩

theorem transition_no_hint_cursor (DRAG_THRESHOLD : Rat) (s : RectangleToolFsmState)
    (e : ToolMessage) (d : RectangleToolData) (ctx : ToolActionHandlerData) :
    ((s.transition DRAG_THRESHOLD e d ctx).2.2.countP Message.isHintMessage = 0) ∧
    ((s.transition DRAG_THRESHOLD e d ctx).2.2.countP Message.isCursorMessage = 0) := by
  cases e with
  | Rectangle m =>
      cases m with
      | Abort =>
          cases s <;>
            simp [RectangleToolFsmState.transition, Message.isHintMessage,
              Message.isCursorMessage]
      | DragStart =>
          cases s <;>
            simp [RectangleToolFsmState.transition, Message.isHintMessage,
              Message.isCursorMessage]
      | DragStop =>
          cases s
          · simp [RectangleToolFsmState.transition, Message.isHintMessage,
              Message.isCursorMessage]
          · cases hd : distanceLe d.data.drag_start ctx.mouse_position DRAG_THRESHOLD <;>
              simp [RectangleToolFsmState.transition, hd, Message.isHintMessage,
                Message.isCursorMessage]
      | Resize center lock_ratio =>
          cases s <;> cases hp : d.data.path <;>
            simp [RectangleToolFsmState.transition, ResizeData.calculate_transform, hp,
              Message.isHintMessage, Message.isCursorMessage]
  | UpdateHints => exact ⟨rfl, rfl⟩
  | UpdateCursor => exact ⟨rfl, rfl⟩
  | SelectTool t => exact ⟨rfl, rfl⟩
  | ResetColors => exact ⟨rfl, rfl⟩
  | SwapColors => exact ⟨rfl, rfl⟩
  | Select m => exact ⟨rfl, rfl⟩

theorem update_hints_class (s : RectangleToolFsmState) :
    Message.isHintMessage s.update_hints = true ∧
    Message.isCursorMessage s.update_hints = false := by
  cases s <;> exact ⟨rfl, rfl⟩

theorem update_cursor_class (s : RectangleToolFsmState) :
    Message.isCursorMessage s.update_cursor = true ∧
    Message.isHintMessage s.update_cursor = false :=
  ⟨rfl, rfl⟩

/-- Claim C5: for every action the rectangle tool driver applies through the
transition function: if the transition returns a state equal to the prior
one, the driver enqueues exactly the transition's own messages and no hint
or cursor message; if it returns a different state, the driver enqueues the
transition's messages followed by exactly one hint message and exactly one
cursor message, both for the new state; the two control messages
`UpdateHints` and `UpdateCursor` are answered by the emitters alone, without
the transition function being consulted. -/
theorem c5_driver_hint_cursor (DRAG_THRESHOLD : Rat) (tool : RectangleTool)
    (action : ToolMessage) (ctx : ToolActionHandlerData)
    (h1 : action ≠ ToolMessage.UpdateHints) (h2 : action ≠ ToolMessage.UpdateCursor) :
    ((tool.fsm_state.transition DRAG_THRESHOLD action tool.tool_data ctx).1 = tool.fsm_state →
      (RectangleTool.process_action DRAG_THRESHOLD tool action ctx).2 =
          (tool.fsm_state.transition DRAG_THRESHOLD action tool.tool_data ctx).2.2
        ∧ (RectangleTool.process_action DRAG_THRESHOLD tool action ctx).2.countP
            Message.isHintMessage = 0
        ∧ (RectangleTool.process_action DRAG_THRESHOLD tool action ctx).2.countP
            Message.isCursorMessage = 0)
  ∧ ((tool.fsm_state.transition DRAG_THRESHOLD action tool.tool_data ctx).1 ≠ tool.fsm_state →
      (RectangleTool.process_action DRAG_THRESHOLD tool action ctx).2 =
          (tool.fsm_state.transition DRAG_THRESHOLD action tool.tool_data ctx).2.2
            ++ [(tool.fsm_state.transition DRAG_THRESHOLD action tool.tool_data ctx).1.update_hints,
                (tool.fsm_state.transition DRAG_THRESHOLD action tool.tool_data ctx).1.update_cursor]
        ∧ (RectangleTool.process_action DRAG_THRESHOLD tool action ctx).2.countP
            Message.isHintMessage = 1
        ∧ (RectangleTool.process_action DRAG_THRESHOLD tool action ctx).2.countP
            Message.isCursorMessage = 1)
  ∧ RectangleTool.process_action DRAG_THRESHOLD tool ToolMessage.UpdateHints ctx =
      (tool, [tool.fsm_state.update_hints])
  ∧ RectangleTool.process_action DRAG_THRESHOLD tool ToolMessage.UpdateCursor ctx =
      (tool, [tool.fsm_state.update_cursor]) := by
  have hout : (RectangleTool.process_action DRAG_THRESHOLD tool action ctx) =
      (let res := tool.fsm_state.transition DRAG_THRESHOLD action tool.tool_data ctx
       if tool.fsm_state ≠ res.1 then
        ({ fsm_state := res.1, tool_data := res.2.1 },
          res.2.2 ++ [res.1.update_hints, res.1.update_cursor])
       else
        ({ tool with tool_data := res.2.1 }, res.2.2)) := by
    simp only [RectangleTool.process_action, if_neg h1, if_neg h2]
  refine ⟨?_, ?_, ?_, ?_⟩
  · intro hsame
    rw [hout]
    simp only [hsame, ne_eq, not_true_eq_false, if_false, reduceIte]
    refine ⟨by trivial, ?_, ?_⟩
    · exact (transition_no_hint_cursor DRAG_THRESHOLD tool.fsm_state action
        tool.tool_data ctx).1
    · exact (transition_no_hint_cursor DRAG_THRESHOLD tool.fsm_state action
        tool.tool_data ctx).2
  · intro hdiff
    rw [hout]
    have hne : tool.fsm_state ≠
        (tool.fsm_state.transition DRAG_THRESHOLD action tool.tool_data ctx).1 :=
      fun hh => hdiff hh.symm
    simp only [if_pos hne]
    refine ⟨by trivial, ?_, ?_⟩
    · rw [List.countP_append,
        (transition_no_hint_cursor DRAG_THRESHOLD tool.fsm_state action tool.tool_data ctx).1]
      simp [List.countP_cons, (update_hints_class _).1, (update_cursor_class _).2]
    · rw [List.countP_append,
        (transition_no_hint_cursor DRAG_THRESHOLD tool.fsm_state action tool.tool_data ctx).2]
      simp [List.countP_cons, (update_hints_class _).2, (update_cursor_class _).1]
  · simp [RectangleTool.process_action]
  · simp [RectangleTool.process_action]

theorem c5_witness :
    ((RectangleTool.process_action 1 demoReadyTool (.Rectangle .DragStart) demoContext).2.countP
        Message.isHintMessage = 1)
  ∧ ((RectangleTool.process_action 1 demoReadyTool (.Rectangle .DragStart) demoContext).2.countP
        Message.isCursorMessage = 1) := by
  have h := c5_driver_hint_cursor 1 demoReadyTool (.Rectangle .DragStart) demoContext
    (by decide) (by decide)
  have h2 := h.2.1 (by decide)
  exact ⟨h2.2.1, h2.2.2⟩

theorem mem_insertEntry {x e : MappingEntry} : ∀ {l : List MappingEntry},
    x ∈ insertEntry e l → x = e ∨ x ∈ l := by
  intro l
  induction l with
  | nil =>
      intro h
      rw [insertEntry] at h
      exact Or.inl (List.mem_singleton.mp h)
  | cons f rest ih =>
      intro h
      by_cases hc : f.modifiers.ones ≤ e.modifiers.ones
      · rw [insertEntry, if_pos hc] at h
        rcases List.mem_cons.mp h with h1 | h2
        · exact Or.inl h1
        · exact Or.inr h2
      · rw [insertEntry, if_neg hc] at h
        rcases List.mem_cons.mp h with h1 | h2
        · exact Or.inr (h1 ▸ List.mem_cons_self f rest)
        · rcases ih h2 with h3 | h4
          · exact Or.inl h3
          · exact Or.inr (List.mem_cons_of_mem f h4)

theorem pairwise_insertEntry {e : MappingEntry} : ∀ {l : List MappingEntry},
    l.Pairwise (fun a b => b.modifiers.ones ≤ a.modifiers.ones) →
    (insertEntry e l).Pairwise (fun a b => b.modifiers.ones ≤ a.modifiers.ones) := by
  intro l
  induction l with
  | nil =>
      intro _
      rw [insertEntry]
      exact List.pairwise_singleton _ _
  | cons f rest ih =>
      intro hp
      rw [List.pairwise_cons] at hp
      obtain ⟨hf, hrest⟩ := hp
      by_cases hc : f.modifiers.ones ≤ e.modifiers.ones
      · rw [insertEntry, if_pos hc]
        refine List.Pairwise.cons ?_ (List.Pairwise.cons hf hrest)
        intro x hx
        rcases List.mem_cons.mp hx with h1 | h2
        · exact h1 ▸ hc
        · exact le_trans (hf x h2) hc
      · rw [insertEntry, if_neg hc]
        refine List.Pairwise.cons ?_ (ih hrest)
        intro x hx
        rcases mem_insertEntry hx with h1 | h2
        · exact h1 ▸ le_of_not_le hc
        · exact hf x h2

theorem pairwise_sortEntries (l : List MappingEntry) :
    (sortEntries l).Pairwise (fun a b => b.modifiers.ones ≤ a.modifiers.ones) := by
  induction l with
  | nil => exact List.Pairwise.nil
  | cons e rest ih =>
      show (insertEntry e (sortEntries rest)).Pairwise _
      exact pairwise_insertEntry ih

theorem filter_insertEntry (c : Nat) (e : MappingEntry) : ∀ (l : List MappingEntry),
    (insertEntry e l).filter (fun x => x.modifiers.ones == c) =
      if e.modifiers.ones == c then
        e :: l.filter (fun x => x.modifiers.ones == c)
      else l.filter (fun x => x.modifiers.ones == c) := by
  intro l
  induction l with
  | nil =>
      rw [insertEntry, List.filter_cons]
  | cons f rest ih =>
      by_cases hc : f.modifiers.ones ≤ e.modifiers.ones
      · rw [insertEntry, if_pos hc, List.filter_cons]
      · rw [insertEntry, if_neg hc, List.filter_cons, ih, List.filter_cons]
        by_cases pe : (e.modifiers.ones == c) = true
        · have he : e.modifiers.ones = c := by
            rw [beq_iff_eq] at pe
            exact pe
          have pf : (f.modifiers.ones == c) = false := by
            rw [beq_eq_false_iff_ne]
            omega
          simp [pe, pf]
        · rw [Bool.not_eq_true] at pe
          simp [pe]

theorem filter_sortEntries (c : Nat) (l : List MappingEntry) :
    (sortEntries l).filter (fun x => x.modifiers.ones == c) =
      l.filter (fun x => x.modifiers.ones == c) := by
  induction l with
  | nil => rfl
  | cons e rest ih =>
      show ((insertEntry e (sortEntries rest)).filter _) = _
      rw [filter_insertEntry, ih, List.filter_cons]

theorem pushEntry_list (m : Mapping) (e : MappingEntry) (t : InputMapperMessage) :
    (Mapping.pushEntry m e).list t =
      m.list t ++ (if decide (e.trigger = t) = true then [e] else []) := by
  rcases he : e.trigger with _ | _ | k | k <;> cases t <;>
    simp only [Mapping.pushEntry, he, Mapping.list, decide_eq_true_eq] <;>
    try simp
  all_goals
    rename_i k'
    by_cases hk : k' = k
    · subst hk
      simp
    · have hne : k ≠ k' := fun h => hk h.symm
      simp [hk, hne]

theorem foldl_pushEntry_list (l : List MappingEntry) : ∀ (m : Mapping) (t : InputMapperMessage),
    (l.foldl Mapping.pushEntry m).list t =
      m.list t ++ l.filter (fun e => decide (e.trigger = t)) := by
  induction l with
  | nil => intro m t; simp
  | cons e rest ih =>
      intro m t
      rw [List.foldl_cons, ih, pushEntry_list, List.filter_cons]
      by_cases hd : decide (e.trigger = t) = true
      · simp [hd]
      · rw [Bool.not_eq_true] at hd
        simp [hd]

theorem build_list (entries : List MappingEntry) (t : InputMapperMessage) :
    (Mapping.build entries).list t = sortEntries ((Mapping.group entries).list t) := by
  cases t <;> rfl

/-- Claim C2: the mapping-table construction groups the declared bindings by
trigger into per-trigger lists and then stable-sorts each list by
descending required-modifier population count: in every trigger's final
list, bindings with more required modifiers come before bindings with
fewer, and for every modifier count the bindings with that count appear
exactly in their declaration order (the filter of the declared list). -/
theorem c2_table_construction (entries : List MappingEntry) (t : InputMapperMessage) :
    ((Mapping.build entries).list t).Pairwise
      (fun a b => b.modifiers.ones ≤ a.modifiers.ones)
  ∧ ∀ c : Nat, ((Mapping.build entries).list t).filter (fun e => e.modifiers.ones == c) =
      (entries.filter fun e => decide (e.trigger = t)).filter
        (fun e => e.modifiers.ones == c) := by
  have hg : (Mapping.group entries).list t =
      entries.filter (fun e => decide (e.trigger = t)) := by
    have h0 : Mapping.empty.list t = [] := by cases t <;> rfl
    rw [Mapping.group, foldl_pushEntry_list, h0, List.nil_append]
  constructor
  · rw [build_list]
    exact pairwise_sortEntries _
  · intro c
    rw [build_list, filter_sortEntries, hg]

theorem consumeFind_snd_sublist (d : MessageDiscriminant) :
    ∀ (l : List MessageDiscriminant), (consumeFind d l).2.Sublist l := by
  intro l
  induction l with
  | nil => exact List.Sublist.refl _
  | cons a rest ih =>
      by_cases h : a = d
      · rw [consumeFind, if_pos h]
        exact List.sublist_cons_self a rest
      · rw [consumeFind, if_neg h]
        exact ih.trans (List.sublist_cons_self a rest)

theorem consumeFind_fst_mem (d : MessageDiscriminant) :
    ∀ (l : List MessageDiscriminant) (x : MessageDiscriminant),
      (consumeFind d l).1 = some x → x ∈ l := by
  intro l
  induction l with
  | nil =>
      intro x h
      rw [consumeFind] at h
      exact absurd h (by simp)
  | cons a rest ih =>
      intro x h
      by_cases ha : a = d
      · rw [consumeFind, if_pos ha] at h
        have hdx : d = x := Option.some.inj h
        rw [← hdx, ← ha]
        exact List.mem_cons_self a rest
      · rw [consumeFind, if_neg ha] at h
        exact List.mem_cons_of_mem a (ih x h)

theorem findBinding_snd_sublist : ∀ (es : KeyMappingEntries) (it : List MessageDiscriminant),
    (findBinding es it).2.Sublist it := by
  intro es
  induction es with
  | nil => intro it; exact List.Sublist.refl it
  | cons e rest ih =>
      intro it
      have hsub := consumeFind_snd_sublist e.action.to_discriminant it
      rcases hc : consumeFind e.action.to_discriminant it with ⟨o, it'⟩
      rw [hc] at hsub
      cases o with
      | none =>
          rw [findBinding, hc]
          exact (ih it').trans hsub
      | some d =>
          rw [findBinding, hc]
          exact hsub

theorem findBinding_fst_mem : ∀ (es : KeyMappingEntries) (it : List MessageDiscriminant)
    (x : MessageDiscriminant), (findBinding es it).1 = some x → x ∈ it := by
  intro es
  induction es with
  | nil =>
      intro it x h
      rw [findBinding] at h
      exact absurd h (by simp)
  | cons e rest ih =>
      intro it x h
      have hsub := consumeFind_snd_sublist e.action.to_discriminant it
      rcases hc : consumeFind e.action.to_discriminant it with ⟨o, it'⟩
      rw [hc] at hsub
      cases o with
      | none =>
          rw [findBinding, hc] at h
          exact hsub.subset (ih it' x h)
      | some d =>
          rw [findBinding, hc] at h
          have hdx : d = x := Option.some.inj h
          have hmem : d ∈ it := consumeFind_fst_mem _ it d (by rw [hc])
          exact hdx ▸ hmem

theorem hintEntries_fst_sublist : ∀ (table : List (Nat × KeyMappingEntries))
    (it : List MessageDiscriminant),
    ((hintEntries table it).map Prod.fst).Sublist (table.map Prod.fst) := by
  intro table
  induction table with
  | nil => intro it; exact List.Sublist.refl _
  | cons q restTable ih =>
      intro it
      rcases q with ⟨k, entries⟩
      rcases hf : findBinding entries it with ⟨o, it'⟩
      cases o with
      | none =>
          rw [hintEntries, hf]
          exact (ih it').cons k
      | some d =>
          rw [hintEntries, hf]
          exact (ih it').cons₂ k

theorem hintEntries_mem : ∀ (table : List (Nat × KeyMappingEntries))
    (it : List MessageDiscriminant) (p : Key × MessageDiscriminant),
    p ∈ hintEntries table it → p.2 ∈ it := by
  intro table
  induction table with
  | nil =>
      intro it p h
      rw [hintEntries] at h
      exact absurd h (by simp)
  | cons q restTable ih =>
      intro it p h
      rcases q with ⟨k, entries⟩
      have hsub := findBinding_snd_sublist entries it
      rcases hf : findBinding entries it with ⟨o, it'⟩
      rw [hf] at hsub
      cases o with
      | none =>
          rw [hintEntries, hf] at h
          exact hsub.subset (ih it' p h)
      | some d =>
          rw [hintEntries, hf] at h
          have h' : p ∈ (k, d) :: hintEntries restTable it' := h
          rcases List.mem_cons.mp h' with h1 | h2
          · have hd : d ∈ it := findBinding_fst_mem entries it d (by rw [hf])
            rw [h1]
            exact hd
          · exact hsub.subset (ih it' p h2)

/-- Claim C8, amended: the hint projection iterates the key-down table's keys
in table order, contributing at most one entry per key (the emitted key
indices are strictly increasing), and every emitted entry's action is a
currently-advertised discriminant that is neither a tool-switching
(`SelectTool`) nor a global action; however, the advertisement is consumed
as it is searched, so each key is paired with the action of the first of its
bindings found in the advertisement elements remaining after the searches
made for earlier bindings and keys — an advertised action that was already
consumed produces no entry. -/
theorem c8_hint_projection (key_down : List KeyMappingEntries) (actions : ActionList) :
    (InputMapper.hints key_down actions).Pairwise (fun p q => p.1 < q.1)
  ∧ (InputMapper.hints key_down actions).all
      (fun p => !p.2.excludedFromHints &&
        (actions.flatten.any fun a => decide (p.2 = a))) = true := by
  constructor
  · have h1 := hintEntries_fst_sublist key_down.enum
      (actions.flatten.filter fun a => !a.excludedFromHints)
    rw [List.enum_map_fst] at h1
    have h2 := List.Pairwise.sublist h1 (List.pairwise_lt_range _)
    exact List.pairwise_map.mp h2
  · rw [List.all_eq_true]
    intro p hp
    have hmem := hintEntries_mem key_down.enum
      (actions.flatten.filter fun a => !a.excludedFromHints) p hp
    rw [List.mem_filter] at hmem
    obtain ⟨hin, hex⟩ := hmem
    rw [Bool.and_eq_true]
    refine ⟨hex, ?_⟩
    rw [List.any_eq_true]
    exact ⟨p.2, hin, by simp⟩

/-- Claim C8, counterexample: take the key-down table whose single key list
is the real `Lmb` declaration prefix [Select `DragStart`, Rectangle
`DragStart`] and advertise exactly the Rectangle `DragStart` discriminant.
The claimed independent pairing yields the entry for Rectangle `DragStart`
on that key, but the code yields no entry at all: searching the
advertisement for the Select binding's discriminant consumes and exhausts
the iterator before the Rectangle binding is tried, so an advertised,
bound action produces no hint. -/
theorem c8_counterexample :
    InputMapper.hints [[selectDragStartEntry, rectangleDragStartEntry]]
        [[MessageDiscriminant.Tool (.Rectangle .DragStart)]] = []
  ∧ InputMapper.hintsIndependent [[selectDragStartEntry, rectangleDragStartEntry]]
        [[MessageDiscriminant.Tool (.Rectangle .DragStart)]] =
      [(0, MessageDiscriminant.Tool (.Rectangle .DragStart))] := by
  constructor
  · rfl
  · rfl
